import Mathlib

/-!
Verification of the poster-compositing core of the Manual-quote-poster-generator
repository (PyQt6). The Python sources are shallowly embedded: `QPixmap` becomes
a record of integer dimensions plus a total pixel function; Qt's resampling
filter and glyph rasterization are external C++ code, so their pixel effects are
passed in as explicit function parameters, while every size computation, guard
and branch of the Python code is translated literally.

Sources embedded:
  - `app/core/poster_generator.py` (`PosterSettings`, `PosterGenerator.generate_poster`,
    `PosterGenerator.save_poster`)
  - `app/ui/main_window.py` (`MainWindow.update_preview` slider-offset and rect
    logic, `MainWindow.export_poster`)
  - `app/utils/image_utils.py` (`add_text_to_image`)
  - Qt semantics used by those lines: `QSize::scaled` with
    `KeepAspectRatioByExpanding`, `QPixmap::scaled`, `QPixmap::copy`,
    `QPixmap::fill`, null-pixmap construction.
Integer conventions: Python `//` is floor division (`Int.fdiv`); C++ `qint64 /`
truncates toward zero (`Int.tdiv`); Python `int()` on a float truncates toward
zero.
-/

/-- Pixel colors are opaque values; the claims never inspect color structure. -/
abbrev Color := Nat

/-- Shallow model of `QPixmap`: integer dimensions plus a total pixel function.
A null pixmap is represented with both dimensions `0`, as in Qt. -/
structure QPixmapM where
  width : Int
  height : Int
  pix : Int → Int → Color

/-- The null pixmap (`QPixmap()`), size 0 × 0. -/
def nullPixmap : QPixmapM := ⟨0, 0, fun _ _ => 0⟩

/-- `QPixmap::isNull`: a pixmap with a non-positive dimension is null. -/
def QPixmapM.isNull (p : QPixmapM) : Bool := p.width ≤ 0 || p.height ≤ 0

/-- `QPixmap(w, h)`: a fresh pixmap of the given size; Qt constructs a null
pixmap when either dimension is non-positive. Uninitialized contents are
modelled as the constant 0 color (the code always fills before use). -/
def mkPixmap (w h : Int) : QPixmapM :=
  if w ≤ 0 ∨ h ≤ 0 then nullPixmap else ⟨w, h, fun _ _ => 0⟩

/-- `QPixmap::fill(color)`: fills the whole pixmap; a warning no-op on a null
pixmap. -/
def QPixmapM.fill (p : QPixmapM) (c : Color) : QPixmapM :=
  if p.isNull then p else ⟨p.width, p.height, fun _ _ => c⟩

/-- `QSize::scaled(target, KeepAspectRatioByExpanding)` from Qt:
`rw = targetH * srcW / srcH` in `qint64` arithmetic (truncating division); if
`rw >= targetW` the result is `(rw, targetH)`, otherwise
`(targetW, targetW * srcH / srcW)`. A zero source dimension returns the target
unchanged. -/
def sizeByExpanding (srcW srcH tw th : Int) : Int × Int :=
  if srcW = 0 ∨ srcH = 0 then (tw, th)
  else
    let rw := (th * srcW).tdiv srcH
    if tw ≤ rw then (rw, th) else (tw, (tw * srcH).tdiv srcW)

/-- `QPixmap::scaled(w, h, KeepAspectRatioByExpanding, SmoothTransformation)`:
null and empty-target guards, the `QSize::scaled` size computation clamped to
at least 1 × 1, and the short-circuit returning the pixmap itself when the
computed size equals the current size. The smooth resampling filter is
external Qt code and is supplied as the `resample` parameter, which produces
the pixel contents of the transformed copy. -/
def QPixmapM.scaled (resample : QPixmapM → Int → Int → Int → Int → Color)
    (p : QPixmapM) (tw th : Int) : QPixmapM :=
  if p.isNull then nullPixmap
  else if tw ≤ 0 ∨ th ≤ 0 then nullPixmap
  else
    let ns := sizeByExpanding p.width p.height tw th
    let nw := max ns.1 1
    let nh := max ns.2 1
    if nw = p.width ∧ nh = p.height then p
    else ⟨nw, nh, resample p nw nh⟩

/-- `QPixmap::copy(x, y, w, h)`: a `w × h` pixmap whose pixel `(i, j)` is the
source pixel `(x+i, y+j)`; with an empty rectangle Qt copies the whole
pixmap. -/
def QPixmapM.copy (p : QPixmapM) (x y w h : Int) : QPixmapM :=
  if w ≤ 0 ∨ h ≤ 0 then p
  else ⟨w, h, fun i j => p.pix (x + i) (y + j)⟩

/-- Qt alignment flag values: `AlignLeft = 0x1`, `AlignRight = 0x2`,
`AlignHCenter = 0x4`, `AlignVCenter = 0x80`. -/
def alignLeft : Nat := 1

/-- `Qt.AlignmentFlag.AlignRight`. -/
def alignRight : Nat := 2

/-- `Qt.AlignmentFlag.AlignHCenter`. -/
def alignHCenter : Nat := 4

/-- `Qt.AlignmentFlag.AlignVCenter`. -/
def alignVCenter : Nat := 128

/-- `Qt.AlignmentFlag.AlignCenter = AlignHCenter | AlignVCenter = 0x84`. -/
def alignCenter : Nat := 132

/-- The `PosterSettings` dataclass of `poster_generator.py`, with the `size`
tuple flattened into `width`/`height` and `QColor` values kept opaque. -/
structure PosterSettings where
  text : String := ""
  font_family : String := "Arial"
  font_size : Int := 24
  text_color : Color := 0
  alignment : Nat := alignCenter
  padding : Int := 40
  background_color : Color := 0
  width : Int := 800
  height : Int := 600

/-- Python `str.strip()` whitespace set: space, tab, LF, CR, VT, FF. -/
def isPySpace (c : Char) : Bool :=
  c = ' ' || c = '\t' || c = '\n' || c = '\r' || c = '\x0b' || c = '\x0c'

/-- Python `str.strip()`: drop leading and trailing whitespace. -/
def pyStrip (s : String) : String :=
  String.mk (((s.toList.dropWhile isPySpace).reverse.dropWhile isPySpace).reverse)

/-- Painting text with an active `QPainter` (`painter.drawText(...)`): Qt's
glyph rasterization is external, so the painted pixel contents are supplied by
`eff` from the pixmap being painted; dimensions are unchanged. On a null
pixmap `QPainter::begin` fails and every draw call is a warning no-op. -/
def paintText (eff : QPixmapM → Int → Int → Color) (p : QPixmapM) : QPixmapM :=
  if p.isNull then p else ⟨p.width, p.height, eff p⟩

/-- Lines 71–82 of `poster_generator.py` (the background branch of
`generate_poster`): scale keeping aspect ratio by expanding, then crop to the
exact size if the scaled size differs, with `x = (scaledW - w) // 2` and
`y = (scaledH - h) // 2` (Python floor division). -/
def fit_background (resample : QPixmapM → Int → Int → Int → Int → Color)
    (s : PosterSettings) (b : QPixmapM) : QPixmapM :=
  let p := QPixmapM.scaled resample b s.width s.height
  if p.width = s.width ∧ p.height = s.height then p
  else
    p.copy ((p.width - s.width).fdiv 2) ((p.height - s.height).fdiv 2)
      s.width s.height

/-- Lines 66–86 of `poster_generator.py` up to the text guard: a solid-filled
blank pixmap when no background is set or the background is null, otherwise
the fitted background. -/
def fitOrFill (resample : QPixmapM → Int → Int → Int → Int → Color)
    (s : PosterSettings) (bg : Option QPixmapM) : QPixmapM :=
  match bg with
  | none => (mkPixmap s.width s.height).fill s.background_color
  | some b =>
    if b.isNull then (mkPixmap s.width s.height).fill s.background_color
    else fit_background resample s b

/-- `PosterGenerator.generate_poster` (lines 60–115 of `poster_generator.py`):
background fitting / solid fill, the `self.settings.text.strip()` emptiness
guard, and the text-painting pass. `drawText` stands for the external
`QPainter.drawText` rasterization (font, pen, padded rectangle and alignment
are all consumed by it); it receives the settings and the canvas. -/
def generate_poster (resample : QPixmapM → Int → Int → Int → Int → Color)
    (drawText : PosterSettings → QPixmapM → Int → Int → Color)
    (s : PosterSettings) (bg : Option QPixmapM) : QPixmapM :=
  let pixmap := fitOrFill resample s bg
  if pyStrip s.text = "" then pixmap
  else paintText (drawText s) pixmap

/-- Python exceptions, kept opaque. -/
inductive PyExc where
  | exc : String → PyExc

/-- `PosterGenerator.save_poster` (lines 117–132): `try:` generate then
`poster.save(file_path, format)` returning its boolean, `except Exception:`
print and return `False`. The generation step and the `QPixmap.save` call are
passed as `Except`-valued computations so that any raised exception is
represented. -/
def save_poster (gen : Except PyExc QPixmapM)
    (save : QPixmapM → Except PyExc Bool) : Except PyExc Bool :=
  match gen with
  | Except.error _ => Except.ok false
  | Except.ok poster =>
    match save poster with
    | Except.error _ => Except.ok false
    | Except.ok b => Except.ok b

/-- The body of `generate_poster` contains no `raise` and the Qt calls it makes
signal problems by warnings and null pixmaps, never by exceptions; as a
fallible computation it always returns normally. -/
def generate_posterE (resample : QPixmapM → Int → Int → Int → Int → Color)
    (drawText : PosterSettings → QPixmapM → Int → Int → Color)
    (s : PosterSettings) (bg : Option QPixmapM) : Except PyExc QPixmapM :=
  Except.ok (generate_poster resample drawText s bg)

/-- Integer `QRect`, stored as Qt stores it: left, top, right, bottom, with
`width = x2 - x1 + 1` and `height = y2 - y1 + 1`. -/
structure QRectM where
  x1 : Int
  y1 : Int
  x2 : Int
  y2 : Int
deriving DecidableEq

/-- `QRect::width()`. -/
def QRectM.width (r : QRectM) : Int := r.x2 - r.x1 + 1

/-- `QRect::height()`. -/
def QRectM.height (r : QRectM) : Int := r.y2 - r.y1 + 1

/-- `QRect::adjusted(dx1, dy1, dx2, dy2)` / in-place `adjust`: add the deltas
to the four coordinates. -/
def QRectM.adjust (r : QRectM) (dx1 dy1 dx2 dy2 : Int) : QRectM :=
  ⟨r.x1 + dx1, r.y1 + dy1, r.x2 + dx2, r.y2 + dy2⟩

/-- `QPixmap::rect()`: `(0, 0, width-1, height-1)` in corner coordinates. -/
def QPixmapM.rect (p : QPixmapM) : QRectM := ⟨0, 0, p.width - 1, p.height - 1⟩

/-!
IEEE-754 double-precision model for the slider-offset computation
`int((pos / 100.0) * (text_width / 2))` in `MainWindow.update_preview`
(lines 561–562 of `main_window.py`). Python floats are IEEE doubles with
round-to-nearest, ties-to-even; every value arising here is in the normal
range, so a double is a dyadic rational `m * 2^e` with `|m| < 2^53`. All
arithmetic below is exact integer arithmetic on such dyadics.
-/

/-- Dyadic rational `m * 2^e`; the value of a (normal-range, finite) double. -/
structure Dy where
  m : Int
  e : Int
deriving DecidableEq

/-- Number of bits of `n` (`0` for `0`), by fuel recursion; the fuel of 200
covers every mantissa that can arise here. -/
def bitLenAux : Nat → Nat → Nat
  | 0, _ => 0
  | fuel + 1, n => if n = 0 then 0 else bitLenAux fuel (n / 2) + 1

/-- Bit length of a natural number. -/
def bitLen (n : Nat) : Nat := bitLenAux 200 n

/-- Round `a / b` (with `b > 0`) to the nearest integer, ties to even. -/
def divHalfEven (a b : Nat) : Nat :=
  let q := a / b
  let r := a % b
  if 2 * r < b then q
  else if b < 2 * r then q + 1
  else if q % 2 = 0 then q else q + 1

/-- Does `b * 2^e ≤ a` hold, for a possibly negative exponent `e`? -/
def pow2MulLe (e : Int) (b a : Nat) : Bool :=
  if 0 ≤ e then b * 2 ^ e.toNat ≤ a else b ≤ a * 2 ^ (-e).toNat

/-- The floor of `log2 (a / b)` for `a, b ≥ 1`: the bit-length difference,
corrected down by one when `2^(lenA - lenB)` exceeds `a / b`. -/
def floorLog2Ratio (a b : Nat) : Int :=
  let d : Int := (bitLen a : Int) - (bitLen b : Int)
  if pow2MulLe d b a then d else d - 1

/-- Round a dyadic to 53 significant bits, nearest, ties to even: IEEE double
rounding of an exact product. Mantissas already within 53 bits are exact. -/
def roundDyadic (d : Dy) : Dy :=
  let n := bitLen d.m.natAbs
  if n ≤ 53 then d
  else
    let k := n - 53
    let a := d.m.natAbs
    let q := a / 2 ^ k
    let r := a % 2 ^ k
    let half := 2 ^ (k - 1)
    let q' := if r < half then q else if half < r then q + 1
              else if q % 2 = 0 then q else q + 1
    ⟨(if d.m < 0 then -1 else 1) * (q' : Int), d.e + (k : Int)⟩

/-- Correctly rounded double division of two dyadics (normal range, divisor
nonzero): the quotient's exponent is located with `floorLog2Ratio`, then a
53-bit mantissa is obtained by ties-to-even integer division. -/
def fdivDy (a b : Dy) : Dy :=
  if a.m = 0 then ⟨0, 0⟩
  else
    let sign : Int := if (decide (a.m < 0) != decide (b.m < 0)) then -1 else 1
    let na := a.m.natAbs
    let nb := b.m.natAbs
    let f := floorLog2Ratio na nb
    let s := 52 - f
    let q := if 0 ≤ s then divHalfEven (na * 2 ^ s.toNat) nb
             else divHalfEven na (nb * 2 ^ (-s).toNat)
    ⟨sign * (q : Int), a.e - b.e + f - 52⟩

/-- Double multiplication: exact integer product, then IEEE rounding. -/
def fmulDy (a b : Dy) : Dy := roundDyadic ⟨a.m * b.m, a.e + b.e⟩

/-- Exact conversion of a Python `int` to a double (our operands are far below
`2^53`, but the rounding step is kept for faithfulness). -/
def pyFloat (n : Int) : Dy := roundDyadic ⟨n, 0⟩

/-- Python `int()` applied to a float: truncation toward zero. -/
def truncDy (d : Dy) : Int :=
  if 0 ≤ d.e then d.m * 2 ^ d.e.toNat else d.m.tdiv (2 ^ (-d.e).toNat)

/-- Line 561 of `main_window.py`:
`x_offset = int((self.text_x_position / 100.0) * (text_width / 2))`.
`pos / 100.0` is a float division; `text_width / 2` is Python true division of
an int by 2, exact in doubles (an exponent decrement); the product is rounded
once; `int()` truncates toward zero. Line 562 computes `y_offset` by the same
function applied to `text_y_position` and `text_height`. -/
def slider_offset (pos extent : Int) : Int :=
  let half := let f := pyFloat extent; ⟨f.m, f.e - 1⟩
  truncDy (fmulDy (fdivDy (pyFloat pos) (pyFloat 100)) half)

/-- Formalization of the spec sentence
`xOffsetPx = round((hPct / 100.0) * (rect.width / 2))` (§4.3), stated with
exact rational arithmetic and mathematical rounding. -/
def spec_offset (pos extent : Int) : Int :=
  round ((pos : ℚ) / 100 * ((extent : ℚ) / 2))

/-- Lines 564–573 of `main_window.py`: branch on `alignment & AlignLeft`,
then `alignment & AlignRight`, else the center default; the horizontal offset
is added to both edges (negated for right alignment); the vertical offset is
then added to both edges unconditionally. -/
def apply_text_offset (alignment : Nat) (r : QRectM) (xo yo : Int) : QRectM :=
  let r1 :=
    if alignment &&& alignLeft ≠ 0 then r.adjust xo 0 xo 0
    else if alignment &&& alignRight ≠ 0 then r.adjust (-xo) 0 (-xo) 0
    else r.adjust xo 0 xo 0
  r1.adjust 0 yo 0 yo

/-- `QPainter::drawPixmap(x, y, src)` on a canvas: the source pixels replace
the canvas pixels inside the pasted rectangle; dimensions are unchanged. -/
def drawPixmapAt (canvas : QPixmapM) (x y : Int) (src : QPixmapM) : QPixmapM :=
  ⟨canvas.width, canvas.height, fun i j =>
    if x ≤ i ∧ i < x + src.width ∧ y ≤ j ∧ j < y + src.height then
      src.pix (i - x) (j - y)
    else canvas.pix i j⟩

/-- `MainWindow.update_preview` (lines 513–591): returns early when the
preview label size is non-positive; otherwise builds a label-sized white
pixmap, pastes the background scaled with `KeepAspectRatioByExpanding`
centered with floor-division offsets, and, when the text is the non-empty
string, paints the text (the rectangle/offset arithmetic feeds the external
`drawText` rasterization, modelled by `drawText`). The returned pixmap is the
one stored into `preview_label`. -/
def update_preview (resample : QPixmapM → Int → Int → Int → Int → Color)
    (drawText : QPixmapM → Int → Int → Color)
    (pw ph : Int) (bg : QPixmapM) (text : String) : Option QPixmapM :=
  if pw ≤ 0 ∨ ph ≤ 0 then none
  else
    let pixmap := (mkPixmap pw ph).fill 1
    let scaled_bg := QPixmapM.scaled resample bg pw ph
    let x := (pw - scaled_bg.width).fdiv 2
    let y := (ph - scaled_bg.height).fdiv 2
    let canvas := drawPixmapAt pixmap x y scaled_bg
    some (if text = "" then canvas else paintText drawText canvas)

/-- The file write performed at the end of `MainWindow.export_poster`: which
pixmap is handed to `QPixmap.save`, with which format and quality. -/
structure SaveCall where
  pixOut : QPixmapM
  fmt : String
  quality : Int

/-- Lines 626–633 of `main_window.py`: `export_poster` takes the pixmap
currently held by `preview_label` (the stored preview), raises-and-catches
into a failure dialog when it is missing or null, and otherwise saves exactly
that pixmap with `quality=95 if format == 'JPEG' else -1`. It never calls
`generate_poster`. -/
def export_poster (previewPixmap : Option QPixmapM) (fmt : String) :
    Option SaveCall :=
  match previewPixmap with
  | none => none
  | some p =>
    if p.isNull then none
    else some ⟨p, fmt, if fmt = "JPEG" then 95 else -1⟩

/-- `add_text_to_image` of `image_utils.py` (lines 28–73): return the pixmap
unchanged when it is null or the stripped text is empty; otherwise paint the
text onto a deep copy (`pixmap.copy()`, value-identical here). -/
def add_text_to_image (eff : QPixmapM → Int → Int → Color)
    (p : QPixmapM) (text : String) : QPixmapM :=
  if p.isNull || decide (pyStrip text = "") then p
  else paintText eff p

/-- Words of one line: maximal runs separated by whitespace. -/
def wordsOf (line : String) : List String :=
  (line.split isPySpace).filter (fun w => w ≠ "")

/-- Modelled from the spec: the greedy word-wrap of §4.2 is performed inside
Qt's `QPainter::drawText` with `Qt.TextFlag.TextWordWrap` (line 106–110 of
`poster_generator.py`), so its algorithm is not in `src/`. Following the
spec's words: accumulate words into the current line while the candidate line
still fits; when it would exceed the bounds, commit the current line and start
a new one with the overflowing word; a word is never split. `fits` is the
font-metric test "the candidate line's measured pixel width does not exceed
`bounds.width`". -/
def wrapGo (fits : List String → Bool) :
    List String → List String → List (List String) → List (List String)
  | [], cur, acc => acc ++ [cur]
  | w :: rest, cur, acc =>
    if fits (cur ++ [w]) then wrapGo fits rest (cur ++ [w]) acc
    else wrapGo fits rest [w] (acc ++ [cur])

/-- Modelled from the spec: greedy wrap of one newline-free line; the first
word always opens the first line. -/
def wrapLine (fits : List String → Bool) : List String → List (List String)
  | [] => []
  | w :: rest => wrapGo fits rest [w] []

/-- Modelled from the spec: newline characters force a line break independent
of width; each segment is wrapped greedily. -/
def wrapText (fits : List String → Bool) (text : String) : List (List String) :=
  ((text.split (fun c => c = '\n')).map (fun line => wrapLine fits (wordsOf line))).flatten

/-- Measured width stand-in used by concrete wrap instances: character count
of the line joined with single spaces. -/
def lineLen : List String → Nat
  | [] => 0
  | [w] => w.length
  | w :: rest => w.length + 1 + lineLen rest

/-- A concrete fit test: the joined line is at most 4 characters wide. -/
def c7fits (l : List String) : Bool := decide (lineLen l ≤ 4)

/-- A trivial concrete resampling filter (constant pixels), used to
instantiate theorems at concrete inputs. -/
def resample0 : QPixmapM → Int → Int → Int → Int → Color := fun _ _ _ _ _ => 0

/-- A trivial concrete text rasterizer for `generate_poster`. -/
def drawText0 : PosterSettings → QPixmapM → Int → Int → Color := fun _ _ _ _ => 2

/-- A trivial concrete text rasterizer for `update_preview`. -/
def drawTextP0 : QPixmapM → Int → Int → Color := fun _ _ _ => 2

/-- The `PosterSettings()` defaults: 800 × 600 canvas. -/
def defaultSettings : PosterSettings := {}

/-- A valid 1600 × 1200 background with constant pixel value 5. -/
def bg1600 : QPixmapM := ⟨1600, 1200, fun _ _ => 5⟩

/-- Default settings with a non-positive canvas width and non-blank text. -/
def badSizeSettings : PosterSettings := { text := "Hello", width := 0 }

/-- A background already exactly the default 800 × 600 canvas size. -/
def b800 : QPixmapM := ⟨800, 600, fun _ _ => 7⟩

/-- Default settings whose text is whitespace only. -/
def wsSettings : PosterSettings := { text := " \t\n " }

/-! Helper lemmas shared by the claim theorems. -/

/-- A pixmap is non-null exactly when both dimensions are positive. -/
theorem isNull_false (p : QPixmapM) :
    p.isNull = false ↔ 0 < p.width ∧ 0 < p.height := by
  simp [QPixmapM.isNull]

/-- Cover property of `QSize::scaled` with `KeepAspectRatioByExpanding`: for
positive source and target sizes, both computed dimensions are at least the
target's. -/
theorem sizeByExpanding_ge (srcW srcH tw th : Int) (hw : 0 < srcW)
    (hh : 0 < srcH) (htw : 0 < tw) (hth : 0 < th) :
    tw ≤ (sizeByExpanding srcW srcH tw th).1 ∧
    th ≤ (sizeByExpanding srcW srcH tw th).2 := by
  have h0 : ¬(srcW = 0 ∨ srcH = 0) := by omega
  by_cases hc : tw ≤ (th * srcW).tdiv srcH
  · simp [sizeByExpanding, h0, hc]
  · have h1 : (th * srcW).tdiv srcH = (th * srcW) / srcH :=
      Int.tdiv_eq_ediv (by positivity) (by omega)
    have h2 : (tw * srcH).tdiv srcW = (tw * srcH) / srcW :=
      Int.tdiv_eq_ediv (by positivity) (by omega)
    have h3 : (th * srcW) / srcH < tw := by omega
    have h4 : th * srcW < tw * srcH := (Int.ediv_lt_iff_lt_mul hh).mp h3
    simp only [sizeByExpanding, h0, if_false, hc]
    refine ⟨le_refl tw, ?_⟩
    rw [h2]
    exact (Int.le_ediv_iff_mul_le hw).mpr (by omega)

/-- Dimensions of a scaled pixmap: the `QSize::scaled` result clamped to at
least 1 in each direction. -/
theorem scaled_dims (re : QPixmapM → Int → Int → Int → Int → Color)
    (p : QPixmapM) (tw th : Int) (hp : p.isNull = false)
    (htw : 0 < tw) (hth : 0 < th) :
    (QPixmapM.scaled re p tw th).width =
      max (sizeByExpanding p.width p.height tw th).1 1 ∧
    (QPixmapM.scaled re p tw th).height =
      max (sizeByExpanding p.width p.height tw th).2 1 := by
  have h2 : ¬(tw ≤ 0 ∨ th ≤ 0) := by omega
  unfold QPixmapM.scaled
  rw [hp]
  simp only [Bool.false_eq_true, if_false, h2]
  split
  · rename_i hcond
    exact ⟨hcond.1.symm, hcond.2.symm⟩
  · exact ⟨rfl, rfl⟩

/-- `paintText` never changes dimensions. -/
theorem paintText_dims (eff : QPixmapM → Int → Int → Color) (p : QPixmapM) :
    (paintText eff p).width = p.width ∧ (paintText eff p).height = p.height := by
  unfold paintText
  split <;> simp

/-- A positively-sized blank pixmap filled with a color. -/
theorem mkPixmap_fill (w h : Int) (c : Color) (hw : 0 < w) (hh : 0 < h) :
    (mkPixmap w h).fill c = ⟨w, h, fun _ _ => c⟩ := by
  have hcond : ¬(w ≤ 0 ∨ h ≤ 0) := by omega
  have hnn : QPixmapM.isNull ⟨w, h, fun _ _ => (0 : Color)⟩ = false := by
    rw [isNull_false]; exact ⟨hw, hh⟩
  simp [mkPixmap, hcond, QPixmapM.fill, hnn]

/-- Full characterization of the background-fitting path: the scaled image
covers the target, the fitted result has exactly the target size, and each of
its pixels is the scaled image's pixel shifted by the centered crop offsets
`(scaled - target) // 2` (also in the skip-crop branch, where both offsets are
zero). -/
theorem fit_background_spec (re : QPixmapM → Int → Int → Int → Int → Color)
    (s : PosterSettings) (b : QPixmapM) (hb : b.isNull = false)
    (hw : 0 < s.width) (hh : 0 < s.height) :
    s.width ≤ (QPixmapM.scaled re b s.width s.height).width ∧
    s.height ≤ (QPixmapM.scaled re b s.width s.height).height ∧
    (fit_background re s b).width = s.width ∧
    (fit_background re s b).height = s.height ∧
    ∀ i j : Int, (fit_background re s b).pix i j =
      (QPixmapM.scaled re b s.width s.height).pix
        (((QPixmapM.scaled re b s.width s.height).width - s.width).fdiv 2 + i)
        (((QPixmapM.scaled re b s.width s.height).height - s.height).fdiv 2 + j) := by
  obtain ⟨hpw, hph⟩ := (isNull_false b).mp hb
  have hge := sizeByExpanding_ge b.width b.height s.width s.height hpw hph hw hh
  have hd := scaled_dims re b s.width s.height hb hw hh
  have hgw : s.width ≤ (QPixmapM.scaled re b s.width s.height).width := by
    rw [hd.1]; exact le_trans hge.1 (le_max_left _ _)
  have hgh : s.height ≤ (QPixmapM.scaled re b s.width s.height).height := by
    rw [hd.2]; exact le_trans hge.2 (le_max_left _ _)
  refine ⟨hgw, hgh, ?_⟩
  by_cases hc : (QPixmapM.scaled re b s.width s.height).width = s.width ∧
      (QPixmapM.scaled re b s.width s.height).height = s.height
  · have hfit : fit_background re s b = QPixmapM.scaled re b s.width s.height := by
      simp only [fit_background]
      rw [if_pos hc]
    rw [hfit, hc.1, hc.2]
    refine ⟨rfl, rfl, fun i j => ?_⟩
    simp
  · have hne : ¬(s.width ≤ 0 ∨ s.height ≤ 0) := by omega
    have hfit : fit_background re s b =
        ⟨s.width, s.height, fun i j =>
          (QPixmapM.scaled re b s.width s.height).pix
            (((QPixmapM.scaled re b s.width s.height).width - s.width).fdiv 2 + i)
            (((QPixmapM.scaled re b s.width s.height).height - s.height).fdiv 2 + j)⟩ := by
      simp only [fit_background]
      rw [if_neg hc]
      simp only [QPixmapM.copy]
      rw [if_neg hne]
    rw [hfit]
    exact ⟨rfl, rfl, fun i j => rfl⟩

/-! Claim theorems. -/

/-- C1: for every valid canvas size (positive width and height) and every
background (absent, null, or a valid pixmap of any aspect ratio),
`generate_poster` returns a canvas whose dimensions equal the configured
`settings.size` exactly. -/
theorem generate_poster_dims_eq_canvasSize
    (re : QPixmapM → Int → Int → Int → Int → Color)
    (dT : PosterSettings → QPixmapM → Int → Int → Color)
    (s : PosterSettings) (bg : Option QPixmapM)
    (hw : 0 < s.width) (hh : 0 < s.height) :
    (generate_poster re dT s bg).width = s.width ∧
    (generate_poster re dT s bg).height = s.height := by
  have hfill : ((mkPixmap s.width s.height).fill s.background_color).width = s.width ∧
      ((mkPixmap s.width s.height).fill s.background_color).height = s.height := by
    rw [mkPixmap_fill s.width s.height s.background_color hw hh]
    exact ⟨rfl, rfl⟩
  have hbase : (fitOrFill re s bg).width = s.width ∧
      (fitOrFill re s bg).height = s.height := by
    cases bg with
    | none => exact hfill
    | some b =>
      by_cases hb : b.isNull
      · simp only [fitOrFill, hb, if_true]
        exact hfill
      · have hb' : b.isNull = false := by simp [hb]
        have hs := fit_background_spec re s b hb' hw hh
        simp only [fitOrFill, hb, if_false]
        exact ⟨hs.2.2.1, hs.2.2.2.1⟩
  unfold generate_poster
  split
  · exact hbase
  · have hp := paintText_dims (dT s) (fitOrFill re s bg)
    exact ⟨hp.1.trans hbase.1, hp.2.trans hbase.2⟩

/-- C1 witness: at the default 800 × 600 settings with no background. -/
theorem generate_poster_dims_eq_canvasSize_witness :
    (generate_poster resample0 drawText0 defaultSettings none).width = 800 ∧
    (generate_poster resample0 drawText0 defaultSettings none).height = 600 :=
  generate_poster_dims_eq_canvasSize resample0 drawText0 defaultSettings none
    (by decide) (by decide)

/-- C2: for every valid background, scaling with `KeepAspectRatioByExpanding`
produces dimensions each at least the target's, and the fitted result is
exactly the target-sized window of the scaled image at the centered crop
offsets `cropX = (scaledW - targetW) // 2`, `cropY = (scaledH - targetH) // 2`
(floor division). -/
theorem fit_background_cover_and_center_crop
    (re : QPixmapM → Int → Int → Int → Int → Color)
    (s : PosterSettings) (b : QPixmapM) (hb : b.isNull = false)
    (hw : 0 < s.width) (hh : 0 < s.height) :
    s.width ≤ (QPixmapM.scaled re b s.width s.height).width ∧
    s.height ≤ (QPixmapM.scaled re b s.width s.height).height ∧
    (fit_background re s b).width = s.width ∧
    (fit_background re s b).height = s.height ∧
    ∀ i j : Int, (fit_background re s b).pix i j =
      (QPixmapM.scaled re b s.width s.height).pix
        (((QPixmapM.scaled re b s.width s.height).width - s.width).fdiv 2 + i)
        (((QPixmapM.scaled re b s.width s.height).height - s.height).fdiv 2 + j) :=
  fit_background_spec re s b hb hw hh

/-- C2 witness: the 1600 × 1200 background fitted into the default 800 × 600
canvas. -/
theorem fit_background_cover_and_center_crop_witness :
    800 ≤ (QPixmapM.scaled resample0 bg1600 800 600).width ∧
    (fit_background resample0 defaultSettings bg1600).width = 800 :=
  have h := fit_background_cover_and_center_crop resample0 defaultSettings bg1600
    (by decide) (by decide) (by decide)
  ⟨h.1, h.2.2.1⟩

/-- C5 (amended): when the scaled size already equals the target canvas size,
the crop step is skipped and the fitted output is exactly the scaled image
(a no-op, not an error); in particular fitting a background already of the
canvas size returns it unchanged, pixel for pixel. -/
theorem fit_background_skip_crop
    (re : QPixmapM → Int → Int → Int → Int → Color)
    (s : PosterSettings) (b : QPixmapM)
    (hw : 0 < s.width) (hh : 0 < s.height)
    (hsc : (QPixmapM.scaled re b s.width s.height).width = s.width ∧
           (QPixmapM.scaled re b s.width s.height).height = s.height) :
    fit_background re s b = QPixmapM.scaled re b s.width s.height ∧
    (b.width = s.width → b.height = s.height → fit_background re s b = b) := by
  have hskip : fit_background re s b = QPixmapM.scaled re b s.width s.height := by
    simp only [fit_background]
    rw [if_pos hsc]
  refine ⟨hskip, fun hbw hbh => ?_⟩
  have hnull : b.isNull = false := (isNull_false b).mpr ⟨by omega, by omega⟩
  have hguard : ¬(s.width ≤ 0 ∨ s.height ≤ 0) := by omega
  have hrw : (s.height * b.width).tdiv b.height = s.width := by
    rw [hbw, hbh]
    exact Int.mul_tdiv_cancel_left s.width (by omega)
  have hsize : sizeByExpanding b.width b.height s.width s.height =
      (s.width, s.height) := by
    have h0 : ¬(b.width = 0 ∨ b.height = 0) := by omega
    simp only [sizeByExpanding, h0, if_false, hrw, le_refl, if_pos]
  have hscaled : QPixmapM.scaled re b s.width s.height = b := by
    unfold QPixmapM.scaled
    rw [hnull]
    simp only [Bool.false_eq_true, if_false]
    rw [if_neg hguard]
    simp only [hsize]
    rw [if_pos]
    constructor
    · omega
    · omega
  rw [hskip, hscaled]

/-- C5 witness: fitting the 800 × 600 background `b800` into the default
800 × 600 canvas returns it unchanged. -/
theorem fit_background_skip_crop_witness :
    fit_background resample0 defaultSettings b800 = b800 :=
  (fit_background_skip_crop resample0 defaultSettings b800 (by decide) (by decide)
    ⟨rfl, rfl⟩).2 rfl rfl

/-- C5 counterexample: the 1600 × 1200 background scales to exactly 800 × 600
(the claim's antecedent holds), yet the fitted output is the scaled image, not
the input — it does not equal the input pixel for pixel (its width is 800, the
input's 1600). -/
theorem fit_background_skip_crop_counterexample :
    (QPixmapM.scaled resample0 bg1600 800 600).width = 800 ∧
    (QPixmapM.scaled resample0 bg1600 800 600).height = 600 ∧
    fit_background resample0 defaultSettings bg1600 ≠ bg1600 := by
  refine ⟨rfl, rfl, fun h => ?_⟩
  have hwidth : (fit_background resample0 defaultSettings bg1600).width = 800 := rfl
  rw [h] at hwidth
  exact absurd hwidth (by decide)

/-- C6: when the settings text strips to empty (empty or whitespace-only),
`generate_poster` returns the fitted/filled background unchanged — the result
does not depend on the text rasterizer at all — and `add_text_to_image`
likewise returns its input pixmap unchanged. -/
theorem generate_poster_blank_text_no_text_pass
    (re : QPixmapM → Int → Int → Int → Int → Color)
    (dT dT' : PosterSettings → QPixmapM → Int → Int → Color)
    (eff : QPixmapM → Int → Int → Color) (p : QPixmapM)
    (s : PosterSettings) (bg : Option QPixmapM)
    (h : pyStrip s.text = "") :
    generate_poster re dT s bg = fitOrFill re s bg ∧
    generate_poster re dT s bg = generate_poster re dT' s bg ∧
    add_text_to_image eff p s.text = p := by
  have h1 : ∀ dT0 : PosterSettings → QPixmapM → Int → Int → Color,
      generate_poster re dT0 s bg = fitOrFill re s bg := by
    intro dT0
    simp only [generate_poster]
    rw [if_pos h]
  refine ⟨h1 dT, (h1 dT).trans (h1 dT').symm, ?_⟩
  simp [add_text_to_image, h]

/-- C6 witness: whitespace-only text with the 1600 × 1200 background. -/
theorem generate_poster_blank_text_no_text_pass_witness :
    generate_poster resample0 drawText0 wsSettings (some bg1600) =
      fitOrFill resample0 wsSettings (some bg1600) :=
  (generate_poster_blank_text_no_text_pass resample0 drawText0 drawText0
    drawTextP0 b800 wsSettings (some bg1600) (by decide)).1

/-- C8 (amended): `generate_poster` performs no canvas-size validation and
raises nothing for a non-positive configured width or height; with no
background it returns the null pixmap (Qt's constructor yields a null pixmap,
fill and paint degrade to warning no-ops), normally, as an `ok` value. -/
theorem generate_poster_bad_canvas_no_error
    (re : QPixmapM → Int → Int → Int → Int → Color)
    (dT : PosterSettings → QPixmapM → Int → Int → Color)
    (s : PosterSettings) (h : s.width ≤ 0 ∨ s.height ≤ 0) :
    generate_poster re dT s none = nullPixmap ∧
    generate_posterE re dT s none = Except.ok nullPixmap := by
  have hmk : mkPixmap s.width s.height = nullPixmap := by
    simp [mkPixmap, h]
  have hfill : nullPixmap.fill s.background_color = nullPixmap := rfl
  have hbase : fitOrFill re s none = nullPixmap := by
    simp only [fitOrFill, hmk, hfill]
  have hmain : generate_poster re dT s none = nullPixmap := by
    simp only [generate_poster, hbase]
    split
    · rfl
    · rfl
  exact ⟨hmain, by simp only [generate_posterE, hmain]⟩

/-- C8 witness: a 0 × 600 canvas with non-blank text and no background. -/
theorem generate_poster_bad_canvas_no_error_witness :
    generate_poster resample0 drawText0 badSizeSettings none = nullPixmap :=
  (generate_poster_bad_canvas_no_error resample0 drawText0 badSizeSettings
    (Or.inl (by decide))).1

/-- C8 counterexample: at the concrete settings `{size := (0, 600),
text := "Hello"}` the code returns normally with a null pixmap — no
configuration error is raised to the caller, contrary to the claim. -/
theorem generate_poster_bad_canvas_counterexample :
    generate_posterE resample0 drawText0 badSizeSettings none =
      Except.ok nullPixmap ∧
    (nullPixmap.width = 0 ∧ nullPixmap.height = 0) := by
  constructor
  · rfl
  · exact ⟨rfl, rfl⟩

/-- C10: `save_poster` never lets an exception escape to its caller — it
always returns normally — and it returns `True` exactly when generation
succeeded and the `QPixmap.save` call succeeded returning `True`; every
failure (exception during generation, exception during saving, or a `False`
from the save call) yields `False`. -/
theorem save_poster_total_and_true_iff
    (gen : Except PyExc QPixmapM) (save : QPixmapM → Except PyExc Bool) :
    (∀ e, save_poster gen save ≠ Except.error e) ∧
    (save_poster gen save = Except.ok true ↔
      ∃ p, gen = Except.ok p ∧ save p = Except.ok true) := by
  cases gen with
  | error e0 =>
    refine ⟨fun e => by simp [save_poster], ?_⟩
    simp [save_poster]
  | ok poster =>
    cases hs : save poster with
    | error e1 =>
      refine ⟨fun e => by simp [save_poster, hs], ?_⟩
      simp [save_poster, hs]
    | ok b =>
      refine ⟨fun e => by simp [save_poster, hs], ?_⟩
      simp [save_poster, hs]

/-- C10 witness: a generation result and a save call that both succeed. -/
theorem save_poster_total_and_true_iff_witness :
    save_poster (Except.ok b800) (fun _ => Except.ok true) = Except.ok true :=
  (save_poster_total_and_true_iff (Except.ok b800)
    (fun _ => Except.ok true)).2.mpr ⟨b800, rfl, rfl⟩

/-- C4: for every rectangle and offset pair, Left and Center alignment shift
the text rectangle by `+xOffset` on both vertical edges, Right alignment by
`-xOffset`; the vertical offset shifts by `+yOffset` regardless of alignment;
and the rectangle's width and height are unchanged. -/
theorem apply_text_offset_shift_directions (r : QRectM) (xo yo : Int) :
    apply_text_offset alignLeft r xo yo =
      ⟨r.x1 + xo, r.y1 + yo, r.x2 + xo, r.y2 + yo⟩ ∧
    apply_text_offset alignCenter r xo yo =
      ⟨r.x1 + xo, r.y1 + yo, r.x2 + xo, r.y2 + yo⟩ ∧
    apply_text_offset alignRight r xo yo =
      ⟨r.x1 - xo, r.y1 + yo, r.x2 - xo, r.y2 + yo⟩ ∧
    (apply_text_offset alignLeft r xo yo).width = r.width ∧
    (apply_text_offset alignCenter r xo yo).width = r.width ∧
    (apply_text_offset alignRight r xo yo).width = r.width ∧
    (apply_text_offset alignLeft r xo yo).height = r.height ∧
    (apply_text_offset alignCenter r xo yo).height = r.height ∧
    (apply_text_offset alignRight r xo yo).height = r.height := by
  have hL : apply_text_offset alignLeft r xo yo =
      (r.adjust xo 0 xo 0).adjust 0 yo 0 yo := by
    unfold apply_text_offset
    rw [if_pos (by decide : alignLeft &&& alignLeft ≠ 0)]
  have hC : apply_text_offset alignCenter r xo yo =
      (r.adjust xo 0 xo 0).adjust 0 yo 0 yo := by
    unfold apply_text_offset
    rw [if_neg (by decide : ¬alignCenter &&& alignLeft ≠ 0),
      if_neg (by decide : ¬alignCenter &&& alignRight ≠ 0)]
  have hR : apply_text_offset alignRight r xo yo =
      (r.adjust (-xo) 0 (-xo) 0).adjust 0 yo 0 yo := by
    unfold apply_text_offset
    rw [if_neg (by decide : ¬alignRight &&& alignLeft ≠ 0),
      if_pos (by decide : alignRight &&& alignRight ≠ 0)]
  refine ⟨?_, ?_, ?_, ?_, ?_, ?_, ?_, ?_, ?_⟩
  all_goals simp [hL, hC, hR, QRectM.adjust, QRectM.width, QRectM.height,
    sub_eq_add_neg]
  all_goals omega

set_option maxRecDepth 100000 in
/-- C3 counterexample: with a 720-px-wide rectangle and `hPct = 33`, the code
computes `int((33 / 100.0) * (720 / 2)) = 118` (the double product is
`118.80000000000001…`, truncated toward zero), while the claimed formula
`round((33 / 100.0) * (720 / 2))` gives 119. -/
theorem slider_offset_not_round_counterexample :
    slider_offset 33 720 = 118 ∧ spec_offset 33 720 = 119 := by
  constructor
  · decide
  · have hval : (((33 : Int) : ℚ) / 100 * (((720 : Int) : ℚ) / 2) + 1 / 2) =
        1193 / 10 := by
      norm_num
    rw [spec_offset, round_eq, hval]
    rw [Int.floor_eq_iff]
    norm_num

set_option maxRecDepth 100000 in
set_option maxHeartbeats 1000000 in
/-- C3 (amended): the slider offsets are computed by Python `int()` truncation
toward zero of the double-precision product `(pct / 100.0) * (extent / 2)`,
not by `round`: for a 720-px-wide rectangle the shift at `hPct = 50` is still
180 px, and over the whole slider range `[-100, 100]` the computed shift
differs from the exact value `pct * 3.6` by at most one pixel (stated as
`|5 * offset - 18 * pct| ≤ 5`), but does not always equal its rounding (e.g.
118 instead of 119 at `hPct = 33`). -/
theorem slider_offset_truncates_double_product :
    ∀ pct : Int, pct ∈ Finset.Icc (-100 : Int) 100 →
      slider_offset 50 720 = 180 ∧
      (5 * slider_offset pct 720 - 18 * pct).natAbs ≤ 5 := by decide

set_option maxRecDepth 100000 in
/-- C3 witness: the amended theorem applied at `hPct = 33`. -/
theorem slider_offset_truncates_double_product_witness :
    slider_offset 50 720 = 180 ∧
    (5 * slider_offset 33 720 - 18 * 33).natAbs ≤ 5 :=
  slider_offset_truncates_double_product 33 (by decide)

/-- C9 (amended): `export_poster` persists exactly the pixmap stored by
`update_preview` — a canvas sized to the preview viewport, not a fresh
native-resolution render — with JPEG quality 95 and default quality for other
formats; `generate_poster` is not invoked. -/
theorem export_poster_saves_preview_pixmap
    (re : QPixmapM → Int → Int → Int → Int → Color)
    (dTP : QPixmapM → Int → Int → Color)
    (pw ph : Int) (bg : QPixmapM) (text fmt : String)
    (hpw : 0 < pw) (hph : 0 < ph) :
    ∃ c, update_preview re dTP pw ph bg text = some c ∧
      c.width = pw ∧ c.height = ph ∧
      export_poster (update_preview re dTP pw ph bg text) fmt =
        some ⟨c, fmt, if fmt = "JPEG" then 95 else -1⟩ := by
  have hguard : ¬(pw ≤ 0 ∨ ph ≤ 0) := by omega
  have hfill : (mkPixmap pw ph).fill 1 = ⟨pw, ph, fun _ _ => 1⟩ :=
    mkPixmap_fill pw ph 1 hpw hph
  have hup : ∃ c, update_preview re dTP pw ph bg text = some c ∧
      c.width = pw ∧ c.height = ph := by
    refine ⟨_, by unfold update_preview; rw [if_neg hguard], ?_, ?_⟩ <;>
    · simp only [hfill, drawPixmapAt]
      split
      · rfl
      · have := paintText_dims dTP
          (drawPixmapAt ((mkPixmap pw ph).fill 1)
            ((pw - (QPixmapM.scaled re bg pw ph).width).fdiv 2)
            ((ph - (QPixmapM.scaled re bg pw ph).height).fdiv 2)
            (QPixmapM.scaled re bg pw ph))
        simp only [hfill, drawPixmapAt] at this
        first
        | exact this.1
        | exact this.2
  obtain ⟨c, hc, hcw, hch⟩ := hup
  have hnull : c.isNull = false := (isNull_false c).mpr ⟨by omega, by omega⟩
  refine ⟨c, hc, hcw, hch, ?_⟩
  rw [hc]
  simp only [export_poster, hnull]
  rfl

/-- C9 witness: a 640 × 480 preview viewport with the 1600 × 1200 background,
exported as JPEG. -/
theorem export_poster_saves_preview_pixmap_witness :
    ∃ c, update_preview resample0 drawTextP0 640 480 bg1600 "hi" = some c ∧
      c.width = 640 ∧ c.height = 480 ∧
      export_poster (update_preview resample0 drawTextP0 640 480 bg1600 "hi")
          "JPEG" = some ⟨c, "JPEG", if "JPEG" = "JPEG" then 95 else -1⟩ :=
  export_poster_saves_preview_pixmap resample0 drawTextP0 640 480 bg1600 "hi"
    "JPEG" (by decide) (by decide)

/-- C9 counterexample: with the default 800 × 600 canvas settings but a
640 × 480 preview viewport, the exported pixmap is 640 px wide — the stored
preview — while the native render of the same background is 800 px wide, so
the export is not the full/native-resolution render the claim describes. -/
theorem export_poster_not_native_counterexample :
    (export_poster (update_preview resample0 drawTextP0 640 480 bg1600 "hi")
        "PNG").map (fun sc => sc.pixOut.width) = some 640 ∧
    (generate_poster resample0 drawText0 defaultSettings (some bg1600)).width
      = 800 ∧
    (640 : Int) ≠ 800 := by
  refine ⟨rfl, rfl, by decide⟩

/-- Unwinding `wrapGo`: the flattened output is the committed lines, the
current line, and the words still to be placed, in order. -/
theorem wrapGo_flatten (fits : List String → Bool) :
    ∀ (rest cur : List String) (acc : List (List String)),
      (wrapGo fits rest cur acc).flatten = acc.flatten ++ cur ++ rest := by
  intro rest
  induction rest with
  | nil =>
    intro cur acc
    simp [wrapGo]
  | cons w rest ih =>
    intro cur acc
    unfold wrapGo
    split
    · rw [ih]
      simp
    · rw [ih]
      simp

/-- The greedy wrap permutes no word and splits no word: flattening the lines
gives back exactly the input word sequence. -/
theorem wrapLine_flatten (fits : List String → Bool) (ws : List String) :
    (wrapLine fits ws).flatten = ws := by
  cases ws with
  | nil => rfl
  | cons w rest =>
    unfold wrapLine
    rw [wrapGo_flatten]
    simp

/-- Invariant for the wide-word property: provided a line containing a word
fits only if the word fits alone, a word that does not fit alone can only ever
appear as a singleton line. -/
theorem wrapGo_wide (fits : List String → Bool)
    (hf : ∀ l w, w ∈ l → fits l = true → fits [w] = true)
    (w0 : String) (hwide : fits [w0] = false) :
    ∀ (rest cur : List String) (acc : List (List String)),
      (∀ l ∈ acc, w0 ∈ l → l = [w0]) → (w0 ∈ cur → cur = [w0]) →
      ∀ l ∈ wrapGo fits rest cur acc, w0 ∈ l → l = [w0] := by
  intro rest
  induction rest with
  | nil =>
    intro cur acc hacc hcur l hl hw0
    simp only [wrapGo, List.mem_append, List.mem_singleton] at hl
    rcases hl with hl | hl
    · exact hacc l hl hw0
    · subst hl
      exact hcur hw0
  | cons w rest ih =>
    intro cur acc hacc hcur l hl hw0
    unfold wrapGo at hl
    split at hl
    · rename_i hfits
      refine ih (cur ++ [w]) acc hacc ?_ l hl hw0
      intro hmem
      have := hf (cur ++ [w]) w0 hmem hfits
      rw [hwide] at this
      exact absurd this (by simp)
    · rename_i hfits
      refine ih [w] (acc ++ [cur]) ?_ ?_ l hl hw0
      · intro l' hl' hw0'
        rcases List.mem_append.mp hl' with h | h
        · exact hacc l' h hw0'
        · have hlcur : l' = cur := by simpa using h
          subst hlcur
          exact hcur hw0'
      · intro hmem
        have hww : w0 = w := by simpa using hmem
        subst hww
        rfl

/-- The wide-word property for a whole wrapped line sequence. -/
theorem wrapLine_wide (fits : List String → Bool)
    (hf : ∀ l w, w ∈ l → fits l = true → fits [w] = true)
    (w0 : String) (hwide : fits [w0] = false) (ws : List String) :
    ∀ l ∈ wrapLine fits ws, w0 ∈ l → l = [w0] := by
  cases ws with
  | nil =>
    intro l hl
    simp [wrapLine] at hl
  | cons w rest =>
    unfold wrapLine
    refine wrapGo_wide fits hf w0 hwide rest [w] [] (by simp) ?_
    intro hmem
    have hww : w0 = w := by simpa using hmem
    subst hww
    rfl

/-- C7 (spec-modelled greedy wrap): wrapping never splits a word — the lines
flatten back to exactly the input word sequence — and, whenever the fit test
only accepts lines all of whose words fit alone, a word too wide for the
bounds appears only as a line by itself, both for a single word list and for
a full text wrapped with forced newline breaks. -/
theorem wrap_never_splits_and_wide_word_alone (fits : List String → Bool)
    (hf : ∀ l w, w ∈ l → fits l = true → fits [w] = true)
    (ws : List String) (text : String) (w0 : String)
    (hwide : fits [w0] = false) :
    (wrapLine fits ws).flatten = ws ∧
    (∀ l ∈ wrapLine fits ws, w0 ∈ l → l = [w0]) ∧
    (∀ l ∈ wrapText fits text, w0 ∈ l → l = [w0]) := by
  refine ⟨wrapLine_flatten fits ws, wrapLine_wide fits hf w0 hwide ws, ?_⟩
  intro l hl hw0
  unfold wrapText at hl
  rw [List.mem_flatten] at hl
  obtain ⟨ll, hll, hmem⟩ := hl
  rw [List.mem_map] at hll
  obtain ⟨seg, _, hseg⟩ := hll
  subst hseg
  exact wrapLine_wide fits hf w0 hwide (wordsOf seg) l hmem hw0

/-- Any word of a line is at most as long as the joined line. -/
theorem length_le_lineLen (w : String) :
    ∀ l : List String, w ∈ l → w.length ≤ lineLen l := by
  intro l
  induction l with
  | nil => simp
  | cons x rest ih =>
    intro hm
    rcases List.mem_cons.mp hm with hxw | hm'
    · subst hxw
      cases rest with
      | nil => simp [lineLen]
      | cons y t => simp [lineLen]; omega
    · cases rest with
      | nil => simp at hm'
      | cons y t =>
        have := ih hm'
        simp [lineLen]
        omega

/-- The concrete fit test `c7fits` accepts a line only if each of its words
fits alone. -/
theorem c7fits_mono :
    ∀ l w, w ∈ l → c7fits l = true → c7fits [w] = true := by
  intro l w hm hfit
  simp only [c7fits, decide_eq_true_eq] at hfit ⊢
  have hle := length_le_lineLen w l hm
  have hl1 : lineLen [w] = w.length := rfl
  omega

/-- C7 witness: wrapping `["ab", "cdefg", "x"]` under a 4-character bound
(the word `cdefg` is wider than the bound) reproduces the words exactly. -/
theorem wrap_never_splits_and_wide_word_alone_witness :
    (wrapLine c7fits ["ab", "cdefg", "x"]).flatten = ["ab", "cdefg", "x"] :=
  (wrap_never_splits_and_wide_word_alone c7fits c7fits_mono
    ["ab", "cdefg", "x"] "ab cdefg x" "cdefg" (by decide)).1
